import Mathlib

/-!
A shallow embedding of `src/webspider.py`.

External collaborators are modelled explicitly:
* `requests.get` outcomes become a `RequestResult`: either a transport-level
  `RequestException` (`.error`) or a `Response` carrying the status code, the
  headers, the body text, and the two BeautifulSoup capabilities the code
  uses (`select_one` first-match text lookup, and the
  `find("meta", attrs=\x7b"name": "keywords"\x7d)` lookup).
* `response.raise_for_status()` raises exactly when the status code is in
  400..599 (`status_error`).
* `datetime.datetime.strptime(s, fmt).date()` becomes an explicit parse
  capability `String → Option Int` (a calendar date encoded as an integer,
  ordered as dates are); `parse_ymd` is a concrete model of the default
  format `"%Y-%m-%d"`.
* Python dicts become association lists in insertion order with unique keys;
  `dget` is `dict.get`.
* File writing in `save_to_csv` becomes the list of lines written, wrapped in
  a `CsvOutcome` that also records the no-data early return and the
  mid-write `ValueError` that `csv.DictWriter` raises on a row with keys
  outside the field names.
-/

namespace WebSpider

/-- Python whitespace as stripped by `str.strip()` (the ASCII part, which is
all the source's inputs use). -/
def pyWS (c : Char) : Bool :=
  c == ' ' || c == '\t' || c == '\n' || c == '\r' || c == '\x0b' || c == '\x0c'

/-- Model of Python `str.lstrip()` on a character list. -/
def lstripW (l : List Char) : List Char := l.dropWhile pyWS

/-- Model of Python `str.rstrip()` on a character list. -/
def rstripW (l : List Char) : List Char := (l.reverse.dropWhile pyWS).reverse

/-- Model of Python `str.strip()` on a character list. -/
def stripW (l : List Char) : List Char := rstripW (lstripW l)

/-- Model of Python `str.strip()` on strings. -/
def pstrip (s : String) : String := ⟨stripW s.data⟩

/-- Model of Python `str.rstrip(c)` for a single character `c`: remove every
trailing occurrence of `c`. -/
def rstrip_char (c : Char) (s : String) : String :=
  ⟨(s.data.reverse.dropWhile (fun a => a == c)).reverse⟩

/-- Model of Python `str.split(sep)` for a one-character separator: the split
never drops empty segments, and the empty string yields one empty segment. -/
def split_on_char (sep : Char) : List Char → List (List Char)
  | [] => [[]]
  | c :: t =>
    if c == sep then [] :: split_on_char sep t
    else
      match split_on_char sep t with
      | [] => [[c]]
      | h :: r => (c :: h) :: r

/-- Python `dict.get k`: first binding of `k` in the association list. -/
def dget {α : Type} (r : List (String × α)) (k : String) : Option α :=
  match r with
  | [] => none
  | kv :: t => if kv.1 = k then some kv.2 else dget t k

/-- Model of an HTTP response as the source consumes it: status code, header
mapping, body text, and the two BeautifulSoup lookups the code performs on
the parsed body. `selectFirst sel` is the raw text of the first element
matching `sel` (`soup.select_one`); `keywordsMeta` is the keywords meta tag
when present, holding its optional `content` attribute. -/
structure Response where
  status : Nat
  headers : List (String × String)
  text : String
  selectFirst : String → Option String
  keywordsMeta : Option (Option String)

/-- Outcome of `requests.get`: a transport failure (any
`requests.exceptions.RequestException` raised by the call itself) or a
response. -/
inductive RequestResult where
  | error : RequestResult
  | ok : Response → RequestResult

/-- `response.raise_for_status()` raises `HTTPError` exactly for client and
server error codes, 400..599. -/
def status_error (code : Nat) : Bool := decide (400 ≤ code ∧ code < 600)

/-- Lower-casing used to model the case-insensitive header mapping of
`requests` responses. -/
def lowerStr (s : String) : String := ⟨s.data.map Char.toLower⟩

/-- Case-insensitive header lookup (`requests` exposes headers as a
case-insensitive dict). -/
def hget (hs : List (String × String)) (k : String) : Option String :=
  match hs with
  | [] => none
  | kv :: t => if lowerStr kv.1 = lowerStr k then some kv.2 else hget t k

/-- A scraped record: field name to optional extracted text, in insertion
order, as built by `scrape_website` and consumed by `filter_by_date` and
`save_to_csv`. -/
abbrev Record := List (String × Option String)

/-- `scrape_website(url, target_elements)` from `src/webspider.py` lines
8-37, with the fetch of `url` passed in as its outcome. On a transport error
or a raised status error it prints a diagnostic and returns the empty dict;
otherwise each rule key maps to the first matching element's stripped text,
or `None` when no element matches. -/
def scrape_website (fetched : RequestResult) (target_elements : List (String × String)) :
    Record :=
  match fetched with
  | .error => []
  | .ok resp =>
    if status_error resp.status then []
    else target_elements.map (fun kv => (kv.1, (resp.selectFirst kv.2).map pstrip))

/-- `extract_keywords(url)` from `src/webspider.py` lines 40-62, with the
fetch passed in. Returns the comma-split, per-segment-stripped content of the
keywords meta tag; the empty list when the tag or its content is missing or
falsy, or on a fetch/status error. -/
def extract_keywords (fetched : RequestResult) : List String :=
  match fetched with
  | .error => []
  | .ok resp =>
    if status_error resp.status then []
    else
      match resp.keywordsMeta with
      | some (some content) =>
        if content = "" then []
        else (split_on_char ',' content.data).map (fun seg => pstrip ⟨seg⟩)
      | _ => []

/-- The URL derivation of `check_robots_txt` (line 74):
`f"\x7burl.rstrip('/')\x7d/robots.txt"`. -/
def robots_url (url : String) : String := rstrip_char '/' url ++ "/robots.txt"

/-- Claim-side alternative for the URL derivation, following the spec's words
"stripping exactly one trailing slash from the root and appending
`/robots.txt`", to be compared with `robots_url`. -/
def robots_url_one_strip (url : String) : String :=
  (if url.data.getLast? = some '/' then (⟨url.data.dropLast⟩ : String) else url) ++ "/robots.txt"

/-- Character test used to model `str.partition(":")`. -/
def not_colon (c : Char) : Bool := !(c == ':')

/-- Model of `line.partition(":")` restricted to the parts the code keeps:
the text before the first colon, and the text after it (empty when there is
no colon). -/
def partition_colon (l : List Char) : List Char × List Char :=
  (l.takeWhile not_colon, (l.dropWhile not_colon).drop 1)

/-- `rules.setdefault(key, []).append(value)` on an insertion-ordered dict:
append to the existing entry, or create one at the end. -/
def addRule (rules : List (String × List String)) (k v : String) :
    List (String × List String) :=
  match rules with
  | [] => [(k, [v])]
  | kv :: t => if kv.1 = k then (kv.1, kv.2 ++ [v]) :: t else kv :: addRule t k v

/-- The line test of `check_robots_txt` line 81: `line.startswith` for the
three directive tokens. -/
def is_directive_line (line : List Char) : Bool :=
  "User-agent".data.isPrefixOf line || "Disallow".data.isPrefixOf line ||
    "Allow".data.isPrefixOf line

/-- One iteration of the parsing loop of `check_robots_txt` (lines 79-84):
strip the line; if it starts with a directive token, partition on the first
colon and accumulate stripped key and stripped value. -/
def robots_step (rules : List (String × List String)) (raw : List Char) :
    List (String × List String) :=
  let line := stripW raw
  if is_directive_line line then
    addRule rules ⟨stripW (partition_colon line).1⟩ ⟨stripW (partition_colon line).2⟩
  else rules

/-- The parsing part of `check_robots_txt` (lines 78-84) applied to a body.
`str.splitlines` is modelled as splitting on a newline character; the extra
empty segment this produces after a trailing newline strips to the empty
line, which no directive token matches, so it contributes nothing. -/
def parse_robots (text : String) : List (String × List String) :=
  (split_on_char '\n' text.data).foldl robots_step []

/-- `check_robots_txt(url)` from `src/webspider.py` lines 65-90, with the
fetch of `robots_url url` passed in as its outcome: parse the body on status
200, otherwise (any other status, or a transport error) print a diagnostic
and return the empty dict. -/
def check_robots_txt (fetched : RequestResult) : List (String × List String) :=
  match fetched with
  | .error => []
  | .ok resp => if resp.status = 200 then parse_robots resp.text else []

/-- `detect_web_technologies(url)` from `src/webspider.py` lines 93-115, with
the fetch passed in. No `raise_for_status` here: headers of any completed
response are inspected, `X-Powered-By` first, then `Server`; a transport
error yields the empty list. -/
def detect_web_technologies (fetched : RequestResult) : List String :=
  match fetched with
  | .error => []
  | .ok resp =>
    (match hget resp.headers "X-Powered-By" with
     | some v => [v]
     | none => []) ++
    (match hget resp.headers "Server" with
     | some v => [v]
     | none => [])

/-- The date lookup of `filter_by_date` line 136: `item.get(date_key)` is
truthy exactly when the key is present, bound to a present string, and that
string is non-empty. -/
def date_value (item : Record) (date_key : String) : Option String :=
  match dget item date_key with
  | some (some s) => if s = "" then none else some s
  | _ => none

/-- The parsed date of a record: the truthy date value fed to the parse
capability (`datetime.datetime.strptime(_, date_format).date()` on line
140); `none` when the value is missing, falsy, or fails to parse
(`ValueError`, caught on line 143). -/
def parsed_date (parse : String → Option Int) (date_key : String) (item : Record) :
    Option Int :=
  (date_value item date_key).bind parse

/-- The per-item decision of `filter_by_date`: keep exactly when a date was
parsed and `item_date >= date_threshold` (line 141); every failure path in
the loop body skips the item. -/
def keep_item (parse : String → Option Int) (date_key : String) (date_threshold : Int)
    (item : Record) : Bool :=
  match parsed_date parse date_key item with
  | some d => decide (date_threshold ≤ d)
  | none => false

/-- `filter_by_date(data, date_key, date_format, date_threshold)` from
`src/webspider.py` lines 118-147, with `strptime` under `date_format` passed
in as `parse` and the threshold explicit (the ambient
`datetime.date.today()` default is the caller's concern). -/
def filter_by_date (parse : String → Option Int) (data : List Record) (date_key : String)
    (date_threshold : Int) : List Record :=
  data.filter (keep_item parse date_key date_threshold)

/-- Digit-list value, for the concrete date parser model. -/
def digits_val (l : List Char) : Nat := l.foldl (fun a c => 10 * a + (c.toNat - 48)) 0

/-- Concrete model of `datetime.datetime.strptime(s, "%Y-%m-%d").date()`:
four year digits, one or two month digits in 1..12, one or two day digits in
1..31, encoded as an integer that orders as the dates do. -/
def parse_ymd (s : String) : Option Int :=
  match split_on_char '-' s.data with
  | [y, m, d] =>
    if y.length = 4 ∧ y.all Char.isDigit ∧
        0 < m.length ∧ m.length ≤ 2 ∧ m.all Char.isDigit ∧
        0 < d.length ∧ d.length ≤ 2 ∧ d.all Char.isDigit ∧
        1 ≤ digits_val m ∧ digits_val m ≤ 12 ∧ 1 ≤ digits_val d ∧ digits_val d ≤ 31 then
      some (10000 * (digits_val y : Int) + 100 * (digits_val m : Int) + (digits_val d : Int))
    else none
  | _ => none

/-- Quoting decision of `csv` with the default `QUOTE_MINIMAL` dialect. -/
def csv_needs_quote (s : String) : Bool :=
  s.data.any (fun c => c == ',' || c == '"' || c == '\n' || c == '\r')

/-- Double every quote character, for quoted CSV fields. -/
def csv_escape (l : List Char) : List Char :=
  l.foldr (fun c acc => if c == '"' then '"' :: '"' :: acc else c :: acc) []

/-- One serialized CSV field under the default dialect. -/
def csv_field (s : String) : String :=
  if csv_needs_quote s then ⟨'"' :: (csv_escape s.data ++ ['"'])⟩ else s

/-- One CSV line (without the line terminator): fields joined by commas. -/
def csv_join (fields : List String) : String := String.intercalate "," fields

/-- The cell `csv.DictWriter` writes for key `k` of `row`: the value when
present (a stored `None` serializes as the empty cell, as `csv` writes
`None`), and the default `restval` empty cell when the key is missing. -/
def csv_cell (row : Record) (k : String) : String :=
  match dget row k with
  | some (some s) => s
  | _ => ""

/-- The extras check of `csv.DictWriter` under the default
`extrasaction="raise"`: a row is writable only when every one of its keys is
among the field names. -/
def row_ok (fieldnames : List String) (row : Record) : Bool :=
  row.all (fun kv => decide (kv.1 ∈ fieldnames))

/-- One data line of the CSV output: the row's cells in field-name order. -/
def csv_row (fieldnames : List String) (row : Record) : String :=
  csv_join (fieldnames.map (fun k => csv_field (csv_cell row k)))

/-- The header line written by `writer.writeheader()`. -/
def csv_header (fieldnames : List String) : String := csv_join (fieldnames.map csv_field)

/-- Outcome of `save_to_csv`: the early return with only a diagnostic on
empty input, a completed write of the given lines, or a write aborted by the
`ValueError` that `csv.DictWriter` raises on a row with an unknown key —
`failed` carries the lines already written when the error is raised. -/
inductive CsvOutcome where
  | noData : CsvOutcome
  | wrote : List String → CsvOutcome
  | failed : List String → CsvOutcome
deriving DecidableEq

/-- The `writer.writerows(data)` loop: write row lines in order until a row
fails the extras check, which aborts with the lines written so far. -/
def write_rows (fieldnames : List String) : List Record → List String → CsvOutcome
  | [], acc => .wrote acc.reverse
  | row :: rest, acc =>
    if row_ok fieldnames row then
      write_rows fieldnames rest (csv_row fieldnames row :: acc)
    else .failed acc.reverse

/-- `save_to_csv(data, filename)` from `src/webspider.py` lines 150-167 as
the sequence of lines reaching the file: empty input returns after a
diagnostic with no write; otherwise the field names are the first record's
keys, the header is written, then every record in order, a record with a key
outside the field names aborting the write mid-file. -/
def save_to_csv (data : List Record) : CsvOutcome :=
  match data with
  | [] => .noData
  | first :: _ =>
    write_rows (first.map Prod.fst) data [csv_header (first.map Prod.fst)]

/-! ### Helper lemmas on the string primitives -/

/-- Dropping from the front of an append stops at a non-matching head of the
second part. -/
theorem dropWhile_append_of_head_false (p : Char → Bool) :
    ∀ (l₁ l₂ : List Char), (∀ c ∈ l₂.head?, p c = false) →
      (l₁ ++ l₂).dropWhile p = l₁.dropWhile p ++ l₂
  | [], l₂, h => by
    cases l₂ with
    | nil => simp
    | cons c t => simp [List.dropWhile_cons, h c (by simp)]
  | a :: l₁, l₂, h => by
    by_cases hp : p a
    · simp only [List.cons_append, List.dropWhile_cons, hp, if_true]
      exact dropWhile_append_of_head_false p l₁ l₂ h
    · simp [List.dropWhile_cons, hp]

/-- Taking from the front of an append passes a fully matching first part. -/
theorem takeWhile_append_all (p : Char → Bool) :
    ∀ (l₁ l₂ : List Char), (∀ c ∈ l₁, p c = true) →
      (l₁ ++ l₂).takeWhile p = l₁ ++ l₂.takeWhile p
  | [], _, _ => by simp
  | a :: l₁, l₂, h => by
    simp only [List.cons_append, List.takeWhile_cons, h a (by simp), if_true]
    rw [takeWhile_append_all p l₁ l₂ (fun c hc => h c (by simp [hc]))]

/-- The head surviving `dropWhile` does not satisfy the predicate. -/
theorem head?_dropWhile_false (p : Char → Bool) :
    ∀ (l : List Char) (c : Char), (l.dropWhile p).head? = some c → p c = false
  | [], c, h => by simp at h
  | a :: l, c, h => by
    by_cases hp : p a
    · rw [List.dropWhile_cons, if_pos hp] at h
      exact head?_dropWhile_false p l c h
    · rw [List.dropWhile_cons, if_neg hp] at h
      simp only [List.head?_cons, Option.some.injEq] at h
      subst h
      exact Bool.eq_false_iff.mpr hp

/-- `rstripW` does not touch a leading block free of whitespace. -/
theorem rstripW_append_left (P w : List Char) (hws : ∀ c ∈ P, pyWS c = false) :
    rstripW (P ++ w) = P ++ rstripW w := by
  unfold rstripW
  rw [List.reverse_append,
    dropWhile_append_of_head_false pyWS w.reverse P.reverse
      (fun c hc => hws c (List.mem_reverse.mp (List.mem_of_mem_head? hc))),
    List.reverse_append, List.reverse_reverse]

/-- `stripW` of a list with a nonempty whitespace-free front keeps that front
and right-strips the rest. -/
theorem stripW_append_left (P w : List Char) (hne : P ≠ [])
    (hws : ∀ c ∈ P, pyWS c = false) :
    stripW (P ++ w) = P ++ rstripW w := by
  have hd : lstripW (P ++ w) = P ++ w := by
    obtain ⟨c, P', rfl⟩ := List.exists_cons_of_ne_nil hne
    have hc : pyWS c = false := hws c (by simp)
    simp [lstripW, List.dropWhile_cons, hc]
  rw [stripW, hd, rstripW_append_left P w hws]

/-- A nonempty directive token free of whitespace and colons survives as a
front of the stripped before-colon part of any line it heads. -/
theorem token_stays_in_key (P line : List Char) (hne : P ≠ [])
    (hws : ∀ c ∈ P, pyWS c = false) (hcol : ∀ c ∈ P, not_colon c = true)
    (hp : P <+: line) :
    P <+: stripW (partition_colon line).1 := by
  obtain ⟨t, rfl⟩ := hp
  show P <+: stripW ((P ++ t).takeWhile not_colon)
  rw [takeWhile_append_all not_colon P t hcol,
    stripW_append_left P (t.takeWhile not_colon) hne hws]
  exact ⟨_, rfl⟩

/-! ### Helper lemmas on the robots accumulator -/

/-- A key of `addRule rules k v` is a key of `rules` or the inserted key. -/
theorem addRule_key_mem (k v k2 : String) :
    ∀ (rules : List (String × List String)),
      k2 ∈ (addRule rules k v).map Prod.fst → k2 ∈ rules.map Prod.fst ∨ k2 = k
  | [], h => by
    simp only [addRule, List.map_cons, List.map_nil, List.mem_singleton] at h
    exact Or.inr h
  | kv :: t, h => by
    by_cases he : kv.1 = k
    · rw [addRule, if_pos he] at h
      simp only [List.map_cons, List.mem_cons] at h ⊢
      rcases h with h | h
      · exact Or.inl (Or.inl h)
      · exact Or.inl (Or.inr h)
    · rw [addRule, if_neg he] at h
      simp only [List.map_cons, List.mem_cons] at h ⊢
      rcases h with h | h
      · exact Or.inl (Or.inl h)
      · rcases addRule_key_mem k v k2 t h with h2 | h2
        · exact Or.inl (Or.inr h2)
        · exact Or.inr h2

/-- The prefix property every policy key of the source's parser satisfies. -/
def directive_fronted (k : String) : Prop :=
  "User-agent".data <+: k.data ∨ "Disallow".data <+: k.data ∨ "Allow".data <+: k.data

/-- A parsing step only adds keys fronted by a directive token. -/
theorem robots_step_key (rules : List (String × List String)) (raw : List Char)
    (k2 : String) (h : k2 ∈ (robots_step rules raw).map Prod.fst) :
    k2 ∈ rules.map Prod.fst ∨ directive_fronted k2 := by
  unfold robots_step at h
  by_cases hd : is_directive_line (stripW raw) = true
  · rw [if_pos hd] at h
    rcases addRule_key_mem _ _ _ rules h with h2 | h2
    · exact Or.inl h2
    · subst h2
      unfold is_directive_line at hd
      simp only [Bool.or_eq_true, List.isPrefixOf_iff_prefix] at hd
      refine Or.inr ?_
      unfold directive_fronted
      rcases hd with (hd | hd) | hd
      · exact Or.inl (token_stays_in_key _ _ (by decide) (by decide) (by decide) hd)
      · exact Or.inr (Or.inl (token_stays_in_key _ _ (by decide) (by decide) (by decide) hd))
      · exact Or.inr (Or.inr (token_stays_in_key _ _ (by decide) (by decide) (by decide) hd))
  · rw [if_neg hd] at h
    exact Or.inl h

/-- The fold of parsing steps preserves the directive-fronted key property. -/
theorem robots_foldl_keys :
    ∀ (lines : List (List Char)) (rules : List (String × List String)),
      (∀ k ∈ rules.map Prod.fst, directive_fronted k) →
      ∀ k ∈ (lines.foldl robots_step rules).map Prod.fst, directive_fronted k
  | [], _, hinv => hinv
  | raw :: lines, rules, hinv => by
    refine robots_foldl_keys lines (robots_step rules raw) ?_
    intro k hk
    rcases robots_step_key rules raw k hk with h | h
    · exact hinv k h
    · exact h

/-! ### Helper lemmas on the date filter -/

/-- The keep decision holds exactly for a present, non-falsy, parsable date
value on or after the threshold. -/
theorem keep_item_iff (parse : String → Option Int) (date_key : String)
    (t : Int) (r : Record) :
    keep_item parse date_key t r = true ↔
      ∃ s d, date_value r date_key = some s ∧ parse s = some d ∧ t ≤ d := by
  unfold keep_item parsed_date
  cases hv : date_value r date_key with
  | none => simp
  | some s =>
    cases hp : parse s with
    | none => simp [hp]
    | some d =>
      simp only [Option.some_bind, hp, decide_eq_true_iff]
      constructor
      · intro hle
        exact ⟨s, d, rfl, hp, hle⟩
      · rintro ⟨s2, d2, hs2, hp2, hle⟩
        rw [Option.some_inj] at hs2
        subst hs2
        rw [hp] at hp2
        cases hp2
        exact hle

/-- A rejected record lacks a usable date value, fails to parse, or parses
strictly before the threshold. -/
theorem keep_item_false (parse : String → Option Int) (date_key : String)
    (t : Int) (r : Record) (h : keep_item parse date_key t r = false) :
    date_value r date_key = none
    ∨ (∃ s, date_value r date_key = some s ∧ parse s = none)
    ∨ (∃ d, parsed_date parse date_key r = some d ∧ d < t) := by
  unfold keep_item parsed_date at h
  cases hv : date_value r date_key with
  | none => exact Or.inl rfl
  | some s =>
    cases hp : parse s with
    | none => exact Or.inr (Or.inl ⟨s, rfl, hp⟩)
    | some d =>
      rw [hv] at h
      simp only [Option.some_bind, hp, decide_eq_false_iff_not, not_le] at h
      exact Or.inr (Or.inr ⟨d, by simp [parsed_date, hv, hp], h⟩)

/-! ### Helper lemmas on the CSV writer -/

/-- The first record always passes the extras check against its own keys. -/
theorem row_ok_self (r : Record) : row_ok (r.map Prod.fst) r = true := by
  unfold row_ok
  rw [List.all_eq_true]
  intro kv hkv
  exact decide_eq_true (List.mem_map_of_mem Prod.fst hkv)

/-- The write loop on rows that all pass the extras check completes, emitting
one line per row after the accumulated ones. -/
theorem write_rows_all_ok (fieldnames : List String) :
    ∀ (rows : List Record) (acc : List String),
      (∀ r ∈ rows, row_ok fieldnames r = true) →
      write_rows fieldnames rows acc = .wrote (acc.reverse ++ rows.map (csv_row fieldnames))
  | [], acc, _ => by simp [write_rows]
  | row :: rest, acc, h => by
    rw [write_rows, if_pos (h row (by simp)),
      write_rows_all_ok fieldnames rest _ (fun r hr => h r (by simp [hr]))]
    simp

/-- The write loop aborts at the first row failing the extras check, with
exactly the earlier rows emitted. -/
theorem write_rows_abort (fieldnames : List String) :
    ∀ (good : List Record) (bad : Record) (rest : List Record) (acc : List String),
      (∀ r ∈ good, row_ok fieldnames r = true) → row_ok fieldnames bad = false →
      write_rows fieldnames (good ++ bad :: rest) acc =
        .failed (acc.reverse ++ good.map (csv_row fieldnames))
  | [], bad, rest, acc, _, hbad => by simp [write_rows, hbad]
  | g :: good, bad, rest, acc, h, hbad => by
    rw [List.cons_append, write_rows, if_pos (h g (by simp)),
      write_rows_abort fieldnames good bad rest _ (fun r hr => h r (by simp [hr])) hbad]
    simp

/-! ### Helper lemma on extraction records -/

/-- Looking up a rule key in the record built by mapping a value function
over a rule list with distinct keys returns that rule's value. -/
theorem dget_map_of_nodup {β : Type} (F : String → β) :
    ∀ (rules : List (String × String)) (k sel : String),
      (rules.map Prod.fst).Nodup → (k, sel) ∈ rules →
      dget (rules.map (fun kv => (kv.1, F kv.2))) k = some (F sel)
  | [], k, sel, _, hm => by simp at hm
  | kv :: t, k, sel, hn, hm => by
    rw [List.map_cons] at hn
    rw [List.map_cons, dget]
    by_cases hk : kv.1 = k
    · rw [if_pos hk]
      rcases List.mem_cons.mp hm with he | ht
      · rw [show kv = (k, sel) from he.symm]
      · exfalso
        have : k ∈ t.map Prod.fst := by
          simpa using List.mem_map_of_mem Prod.fst ht
        rw [List.nodup_cons] at hn
        exact hn.1 (hk ▸ this)
    · rw [if_neg hk]
      rcases List.mem_cons.mp hm with he | ht
      · exact absurd (congrArg Prod.fst he.symm) hk
      · exact dget_map_of_nodup F t k sel (List.nodup_cons.mp hn).2 ht

/-! ### The claims -/

/-- C1: for every record list, date key, date parser (the format's `strptime`
instance) and threshold, the output of `filter_by_date` is an order-preserving
subsequence of the input; a record is kept iff its date field holds a
present, non-empty value that parses and whose parsed date is on or after the
threshold; every dropped record either lacks a usable date value, fails to
parse, or parses strictly before the threshold. -/
theorem C1_filter_by_date_characterization (parse : String → Option Int)
    (data : List Record) (date_key : String) (t : Int) :
    (filter_by_date parse data date_key t).Sublist data
    ∧ (∀ r, r ∈ filter_by_date parse data date_key t ↔
        (r ∈ data ∧ ∃ s d, date_value r date_key = some s ∧ parse s = some d ∧ t ≤ d))
    ∧ (∀ r ∈ data, r ∉ filter_by_date parse data date_key t →
        date_value r date_key = none
        ∨ (∃ s, date_value r date_key = some s ∧ parse s = none)
        ∨ (∃ d, parsed_date parse date_key r = some d ∧ d < t)) := by
  refine ⟨List.filter_sublist data, ?_, ?_⟩
  · intro r
    rw [filter_by_date, List.mem_filter, keep_item_iff]
  · intro r hr hno
    refine keep_item_false parse date_key t r ?_
    cases hk : keep_item parse date_key t r with
    | false => rfl
    | true =>
      exact absurd (List.mem_filter.mpr ⟨hr, hk⟩) hno

/-- C1 witness: the characterization applied to a concrete batch holding a
kept record, an unparsable one, and one with the date missing. -/
theorem C1_filter_by_date_characterization_witness :
    (filter_by_date parse_ymd
        [[("date", some "2024-05-01")], [("date", some "bad")], [("title", some "x")]]
        "date" 20240101).Sublist
      [[("date", some "2024-05-01")], [("date", some "bad")], [("title", some "x")]]
    ∧ (∀ r, r ∈ filter_by_date parse_ymd
          [[("date", some "2024-05-01")], [("date", some "bad")], [("title", some "x")]]
          "date" 20240101 ↔
        (r ∈ [[("date", some "2024-05-01")], [("date", some "bad")], [("title", some "x")]]
          ∧ ∃ s d, date_value r "date" = some s ∧ parse_ymd s = some d ∧ 20240101 ≤ d))
    ∧ (∀ r ∈ [[("date", some "2024-05-01")], [("date", some "bad")], [("title", some "x")]],
        r ∉ filter_by_date parse_ymd
            [[("date", some "2024-05-01")], [("date", some "bad")], [("title", some "x")]]
            "date" 20240101 →
        date_value r "date" = none
        ∨ (∃ s, date_value r "date" = some s ∧ parse_ymd s = none)
        ∨ (∃ d, parsed_date parse_ymd "date" r = some d ∧ d < 20240101)) :=
  C1_filter_by_date_characterization parse_ymd
    [[("date", some "2024-05-01")], [("date", some "bad")], [("title", some "x")]]
    "date" 20240101

/-- C8: when every record's date parses strictly after the threshold the
filter returns the input unchanged, and when every record's date parses
strictly before the threshold it returns the empty list. -/
theorem C8_filter_by_date_all_or_nothing (parse : String → Option Int)
    (data : List Record) (date_key : String) (t : Int) :
    ((∀ r ∈ data, ∃ d, parsed_date parse date_key r = some d ∧ t < d) →
      filter_by_date parse data date_key t = data)
    ∧ ((∀ r ∈ data, ∃ d, parsed_date parse date_key r = some d ∧ d < t) →
      filter_by_date parse data date_key t = []) := by
  constructor
  · intro h
    rw [filter_by_date, List.filter_eq_self]
    intro r hr
    obtain ⟨d, hd, hlt⟩ := h r hr
    rw [keep_item, hd]
    exact decide_eq_true (le_of_lt hlt)
  · intro h
    rw [filter_by_date, List.filter_eq_nil_iff]
    intro r hr
    obtain ⟨d, hd, hlt⟩ := h r hr
    rw [keep_item, hd]
    simp only [decide_eq_true_iff, not_le]
    exact hlt

/-- C8 witness: a concrete two-record batch under the `%Y-%m-%d` parser model
is returned whole for a threshold before both dates and emptied for a
threshold after both. -/
theorem C8_filter_by_date_all_or_nothing_witness :
    filter_by_date parse_ymd
        [[("date", some "2024-05-01")], [("date", some "2024-06-02")]] "date" 20240101 =
      [[("date", some "2024-05-01")], [("date", some "2024-06-02")]]
    ∧ filter_by_date parse_ymd
        [[("date", some "2024-05-01")], [("date", some "2024-06-02")]] "date" 20990101 =
      [] := by
  constructor
  · refine (C8_filter_by_date_all_or_nothing parse_ymd
      [[("date", some "2024-05-01")], [("date", some "2024-06-02")]] "date" 20240101).1 ?_
    intro r hr
    simp only [List.mem_cons, List.not_mem_nil, or_false] at hr
    rcases hr with rfl | rfl
    · exact ⟨20240501, by decide, by decide⟩
    · exact ⟨20240602, by decide, by decide⟩
  · refine (C8_filter_by_date_all_or_nothing parse_ymd
      [[("date", some "2024-05-01")], [("date", some "2024-06-02")]] "date" 20990101).2 ?_
    intro r hr
    simp only [List.mem_cons, List.not_mem_nil, or_false] at hr
    rcases hr with rfl | rfl
    · exact ⟨20240501, by decide, by decide⟩
    · exact ⟨20240602, by decide, by decide⟩

/-- C2: on a successfully fetched document, the record `scrape_website`
produces has key sequence exactly the rule mapping's key sequence, each key
bound to the first matching element's stripped text (or `None` when no
element matches), and the empty rule mapping yields the empty record. -/
theorem C2_scrape_website_key_set (resp : Response) (rules : List (String × String))
    (hok : status_error resp.status = false) (hn : (rules.map Prod.fst).Nodup) :
    (scrape_website (.ok resp) rules).map Prod.fst = rules.map Prod.fst
    ∧ (∀ kv ∈ rules,
        dget (scrape_website (.ok resp) rules) kv.1 =
          some ((resp.selectFirst kv.2).map pstrip))
    ∧ scrape_website (.ok resp) [] = [] := by
  refine ⟨?_, ?_, ?_⟩
  · simp [scrape_website, hok]
  · intro kv hm
    rw [scrape_website]
    simp only [hok, Bool.false_eq_true, if_false]
    exact dget_map_of_nodup (fun sel => (resp.selectFirst sel).map pstrip)
      rules kv.1 kv.2 hn (by simpa using hm)
  · simp [scrape_website, hok]

/-- C2 witness: a concrete document and a two-rule mapping, one rule matching
an element with padded text and one matching nothing. -/
theorem C2_scrape_website_key_set_witness :
    (scrape_website
        (.ok ⟨200, [], "", fun sel => if sel = "h1" then some "  The Title  " else none, none⟩)
        [("title", "h1"), ("description", "meta")]).map Prod.fst =
      [("title", "h1"), ("description", "meta")].map Prod.fst
    ∧ (∀ kv ∈ [("title", "h1"), ("description", "meta")],
        dget (scrape_website
            (.ok ⟨200, [], "", fun sel => if sel = "h1" then some "  The Title  " else none, none⟩)
            [("title", "h1"), ("description", "meta")]) kv.1 =
          some ((if kv.2 = "h1" then some "  The Title  " else none).map pstrip))
    ∧ scrape_website
        (.ok ⟨200, [], "", fun sel => if sel = "h1" then some "  The Title  " else none, none⟩)
        [] = [] :=
  C2_scrape_website_key_set
    ⟨200, [], "", fun sel => if sel = "h1" then some "  The Title  " else none, none⟩
    [("title", "h1"), ("description", "meta")] (by decide) (by decide)

/-- C3 counterexample: on a root URL ending in two slashes the code strips
both before appending, while stripping exactly one trailing slash (the
claim's rule, `robots_url_one_strip`) would keep the other, so the two
derivations disagree. -/
theorem C3_one_slash_counterexample :
    robots_url "http://example.com//" = "http://example.com/robots.txt"
    ∧ robots_url_one_strip "http://example.com//" = "http://example.com//robots.txt"
    ∧ robots_url "http://example.com//" ≠ robots_url_one_strip "http://example.com//" :=
  ⟨by decide, by decide, by decide⟩

/-- C3 amended: `check_robots_txt` derives the robots.txt location by
stripping every trailing slash from the root URL (`url.rstrip('/')`) and
appending `/robots.txt`: the stripped root is a front of the URL, everything
removed is a slash, and the stripped root keeps no trailing slash. -/
theorem C3_robots_url_strips_all_slashes (url : String) :
    robots_url url = rstrip_char '/' url ++ "/robots.txt"
    ∧ (rstrip_char '/' url).data <+: url.data
    ∧ (∀ c ∈ url.data.drop (rstrip_char '/' url).data.length, c = '/')
    ∧ (∀ c, (rstrip_char '/' url).data.getLast? = some c → ¬ c = '/') := by
  have hsplit : url.data =
      (rstrip_char '/' url).data ++ (url.data.reverse.takeWhile (fun a => a == '/')).reverse := by
    conv_lhs =>
      rw [← List.reverse_reverse url.data,
        ← List.takeWhile_append_dropWhile (fun a => a == '/') url.data.reverse]
    rw [List.reverse_append]
    rfl
  refine ⟨rfl, ⟨_, hsplit.symm⟩, ?_, ?_⟩
  · intro c hc
    rw [show url.data.drop (rstrip_char '/' url).data.length =
        (url.data.reverse.takeWhile (fun a => a == '/')).reverse by
      conv_lhs => rw [hsplit]
      exact List.drop_left _ _] at hc
    have := List.mem_takeWhile_imp (List.mem_reverse.mp hc)
    exact eq_of_beq this
  · intro c hc
    rw [show (rstrip_char '/' url).data =
        (url.data.reverse.dropWhile (fun a => a == '/')).reverse from rfl,
      List.getLast?_reverse] at hc
    have := head?_dropWhile_false (fun a => a == '/') url.data.reverse c hc
    simpa using this

/-- C3 amended witness: the derivation at a URL with three trailing slashes
keeps none of them. -/
theorem C3_robots_url_strips_all_slashes_witness :
    robots_url "http://e.com///" = rstrip_char '/' "http://e.com///" ++ "/robots.txt"
    ∧ (rstrip_char '/' "http://e.com///").data <+: "http://e.com///".data
    ∧ (∀ c ∈ "http://e.com///".data.drop (rstrip_char '/' "http://e.com///").data.length,
        c = '/')
    ∧ (∀ c, (rstrip_char '/' "http://e.com///").data.getLast? = some c → ¬ c = '/') :=
  C3_robots_url_strips_all_slashes "http://e.com///"

/-- C4 counterexample: the line test is `startswith`, so the body
`"Disallowed: /x"` yields the policy key `"Disallowed"`, which is none of the
three recognized directives. -/
theorem C4_unknown_key_counterexample :
    parse_robots "Disallowed: /x" = [("Disallowed", ["/x"])]
    ∧ "Disallowed" ∈ (parse_robots "Disallowed: /x").map Prod.fst
    ∧ "Disallowed" ≠ "User-agent" ∧ "Disallowed" ≠ "Disallow" ∧ "Disallowed" ≠ "Allow" :=
  ⟨by decide, by decide, by decide, by decide, by decide⟩

/-- C4 amended: every key of the policy begins with one of the three
directive tokens `"User-agent"`, `"Disallow"`, `"Allow"` — though it may
strictly extend the token, as in `"Disallowed"` — because a line contributes
a key only when its trimmed text starts with one of the three tokens, and
the key is that line's trimmed text before the first colon; all other lines
are ignored and contribute no key. -/
theorem C4_policy_keys_start_with_directive (text : String) (k : String)
    (hk : k ∈ (parse_robots text).map Prod.fst) :
    "User-agent".data <+: k.data ∨ "Disallow".data <+: k.data ∨ "Allow".data <+: k.data := by
  have := robots_foldl_keys (split_on_char '\n' text.data) [] (by simp) k hk
  exact this

/-- C4 amended witness: the key produced by a plain `Disallow` line starts
with a directive token. -/
theorem C4_policy_keys_start_with_directive_witness :
    "User-agent".data <+: "Disallow".data ∨ "Disallow".data <+: "Disallow".data
    ∨ "Allow".data <+: "Disallow".data :=
  C4_policy_keys_start_with_directive "Disallow: /x" "Disallow" (by decide)

/-- C5: on a fetched robots.txt of status 200 whose body is only comments and
blank lines the policy is empty; on the body
`"User-agent: *\nDisallow: /admin\nDisallow: /tmp\n"` the policy maps
`User-agent` to `["*"]` and `Disallow` to `["/admin", "/tmp"]`, repeated
directives accumulating in appearance order. -/
theorem C5_check_robots_txt_examples :
    check_robots_txt (.ok ⟨200, [], "# a comment\n\n   \n# another comment",
        fun _ => none, none⟩) = []
    ∧ check_robots_txt (.ok ⟨200, [], "User-agent: *\nDisallow: /admin\nDisallow: /tmp\n",
        fun _ => none, none⟩) =
      [("User-agent", ["*"]), ("Disallow", ["/admin", "/tmp"])] :=
  ⟨by decide, by decide⟩

/-- C6: `save_to_csv` on an empty record list writes nothing and raises no
error; on a non-empty list whose records stay within the first record's key
set it writes the header row built from the first record's key sequence and
one row per record in that fixed column order, a missing field serializing
as the empty cell; in particular the claim's example yields header `a,b` and
rows `1,2` then `3,`. -/
theorem C6_save_to_csv_header_and_rows (first : Record) (rest : List Record)
    (hok : ∀ r ∈ first :: rest, row_ok (first.map Prod.fst) r = true) :
    save_to_csv [] = .noData
    ∧ save_to_csv (first :: rest) =
        .wrote (csv_header (first.map Prod.fst) ::
          (first :: rest).map (csv_row (first.map Prod.fst)))
    ∧ (∀ (r : Record) (k : String), dget r k = none → csv_cell r k = "")
    ∧ save_to_csv [[("a", some "1"), ("b", some "2")], [("a", some "3")]] =
        .wrote ["a,b", "1,2", "3,"] := by
  refine ⟨rfl, ?_, ?_, by decide⟩
  · rw [save_to_csv,
      write_rows_all_ok (first.map Prod.fst) (first :: rest) _ hok]
    simp
  · intro r k h
    rw [csv_cell, h]

/-- C6 witness: the header-and-rows description applied to the claim's
two-record example. -/
theorem C6_save_to_csv_header_and_rows_witness :
    save_to_csv [[("a", some "1"), ("b", some "2")], [("a", some "3")]] =
      .wrote ["a,b", "1,2", "3,"] :=
  (C6_save_to_csv_header_and_rows [("a", some "1"), ("b", some "2")] [[("a", some "3")]]
    (by decide)).2.2.2

/-- C7: every fetch-based analyzer catches transport errors (a raised
`RequestException`, the `.error` outcome) and the raised status errors it can
encounter locally and degrades to its empty default — empty record, empty
keyword list, empty policy, empty technology list — instead of propagating a
raised error: `scrape_website` and `extract_keywords` turn their
`raise_for_status` errors into empty results, and `check_robots_txt` returns
the empty policy on any non-200 status. -/
theorem C7_analyzers_degrade_to_defaults :
    (∀ rules, scrape_website .error rules = [])
    ∧ extract_keywords .error = []
    ∧ check_robots_txt .error = []
    ∧ detect_web_technologies .error = []
    ∧ (∀ resp rules, status_error resp.status = true → scrape_website (.ok resp) rules = [])
    ∧ (∀ resp, status_error resp.status = true → extract_keywords (.ok resp) = [])
    ∧ (∀ resp, resp.status ≠ 200 → check_robots_txt (.ok resp) = []) := by
    refine ⟨fun _ => rfl, rfl, rfl, rfl, ?_, ?_, ?_⟩
    · intro resp rules h
      simp [scrape_website, h]
    · intro resp h
      simp [extract_keywords, h]
    · intro resp h
      simp [check_robots_txt, h]

/-- C7 witness: a server-error response with scrapable content still yields
the empty defaults from the three status-checking analyzers. -/
theorem C7_analyzers_degrade_to_defaults_witness :
    scrape_website (.ok ⟨500, [], "", fun _ => some "text", some (some "a,b")⟩)
        [("title", "h1")] = []
    ∧ extract_keywords (.ok ⟨500, [], "", fun _ => some "text", some (some "a,b")⟩) = []
    ∧ check_robots_txt (.ok ⟨404, [], "User-agent: *", fun _ => none, none⟩) = [] :=
  ⟨C7_analyzers_degrade_to_defaults.2.2.2.2.1 _ _ (by decide),
    C7_analyzers_degrade_to_defaults.2.2.2.2.2.1 _ (by decide),
    C7_analyzers_degrade_to_defaults.2.2.2.2.2.2 _ (by decide)⟩

/-- C9: when a record after the first carries a key outside the first
record's key set, `save_to_csv` aborts with the `ValueError` that
`csv.DictWriter` raises instead of completing the export, leaving only the
header and the rows before the offending record written — extra keys are not
silently dropped. -/
theorem C9_save_to_csv_extra_key_aborts (first bad : Record) (good rest : List Record)
    (hgood : ∀ r ∈ good, row_ok (first.map Prod.fst) r = true)
    (hbad : ∃ kv ∈ bad, kv.1 ∉ first.map Prod.fst) :
    save_to_csv (first :: (good ++ bad :: rest)) =
      .failed (csv_header (first.map Prod.fst) ::
        (first :: good).map (csv_row (first.map Prod.fst)))
    ∧ ∀ lines, save_to_csv (first :: (good ++ bad :: rest)) ≠ .wrote lines := by
  have hbadok : row_ok (first.map Prod.fst) bad = false := by
    obtain ⟨kv, hkv, hnot⟩ := hbad
    rw [row_ok]
    cases hall : bad.all (fun kv => decide (kv.1 ∈ first.map Prod.fst)) with
    | false => rfl
    | true =>
      exact absurd (of_decide_eq_true (List.all_eq_true.mp hall kv hkv)) hnot
  have heq : save_to_csv (first :: (good ++ bad :: rest)) =
      .failed (csv_header (first.map Prod.fst) ::
        (first :: good).map (csv_row (first.map Prod.fst))) := by
    rw [save_to_csv, show first :: (good ++ bad :: rest) = (first :: good) ++ bad :: rest
        from rfl,
      write_rows_abort (first.map Prod.fst) (first :: good) bad rest _ ?_ hbadok]
    · simp
    · intro r hr
      rcases List.mem_cons.mp hr with rfl | hr2
      · exact row_ok_self r
      · exact hgood r hr2
  refine ⟨heq, ?_⟩
  intro lines
  rw [heq]
  exact fun h => CsvOutcome.noConfusion h

/-- C9 witness: a second record with the extra key `b` aborts the export
after the header and the first row. -/
theorem C9_save_to_csv_extra_key_aborts_witness :
    save_to_csv [[("a", some "1")], [("a", some "2"), ("b", some "3")]] =
      .failed ["a", "1"] := by
  have h := (C9_save_to_csv_extra_key_aborts [("a", some "1")]
    [("a", some "2"), ("b", some "3")] [] [] (by simp)
    ⟨("b", some "3"), by decide, by decide⟩).1
  rw [show ([[("a", some "1")], [("a", some "2"), ("b", some "3")]] :
      List Record) = [("a", some "1")] :: ([] ++ [("a", some "2"), ("b", some "3")] :: [])
      from rfl, h]
  decide

/-- C10: when the fetch behind `scrape_website` fails — transport error or a
status `raise_for_status` raises on — it returns the empty record whatever
the rule mapping, so on the failure path the result's key set is empty
rather than equal to a non-empty rule mapping's key set. -/
theorem C10_scrape_website_failure_empty (resp : Response)
    (rules : List (String × String)) (hstatus : status_error resp.status = true)
    (hne : rules ≠ []) :
    scrape_website .error rules = []
    ∧ scrape_website (.ok resp) rules = []
    ∧ (scrape_website .error rules).map Prod.fst ≠ rules.map Prod.fst
    ∧ (scrape_website (.ok resp) rules).map Prod.fst ≠ rules.map Prod.fst := by
  have h1 : scrape_website .error rules = [] := rfl
  have h2 : scrape_website (.ok resp) rules = [] := by
    simp [scrape_website, hstatus]
  have hmap : rules.map Prod.fst ≠ [] := by
    simpa using hne
  refine ⟨h1, h2, ?_, ?_⟩
  · rw [h1]
    exact fun h => hmap h.symm
  · rw [h2]
    exact fun h => hmap h.symm

/-- C10 witness: a 404 response leaves a one-rule scrape with the empty
record, whose key set differs from the rule mapping's. -/
theorem C10_scrape_website_failure_empty_witness :
    scrape_website .error [("title", "h1")] = []
    ∧ scrape_website (.ok ⟨404, [], "", fun _ => none, none⟩) [("title", "h1")] = []
    ∧ (scrape_website .error [("title", "h1")]).map Prod.fst ≠
        [("title", "h1")].map Prod.fst
    ∧ (scrape_website (.ok ⟨404, [], "", fun _ => none, none⟩)
        [("title", "h1")]).map Prod.fst ≠ [("title", "h1")].map Prod.fst :=
  C10_scrape_website_failure_empty ⟨404, [], "", fun _ => none, none⟩
    [("title", "h1")] (by decide) (by decide)

end WebSpider
